import Mathlib

/-!
# Verification of the player-stock computation engine

Shallow embedding of `scripts/compute_player_stock.py` (the price/score
computation core).  Python floats are modelled as exact rationals (`ℚ`);
`pandas.Series.round(n)` is modelled by `roundQ n`; a missing column or a
NaN cell is modelled by `Option`.  The transcendental `math.tanh` and the
square root inside `pandas.std()` are not rational, so functions that need
them take the tanh map (resp. the standard-deviation value) as an explicit
parameter; theorems characterise those parameters by the properties the
real functions satisfy (`|tanh x| ≤ 1`, `std ≥ 0 ∧ std ^ 2 = variance`).
-/

namespace PlayerStock

/-- Round a rational to `n` decimal places (models `Series.round(n)` /
`round(x, n)`, idealising binary floats as exact decimals). -/
def roundQ (n : ℕ) (x : ℚ) : ℚ := (round (x * 10 ^ n) : ℤ) / 10 ^ n

/-- Clamp `x` into `[lo, hi]` (models `Series.clip(lower=lo, upper=hi)`). -/
def clip (lo hi x : ℚ) : ℚ := max lo (min hi x)

/-- Arithmetic mean of a list (models `Series.mean()`); `0` on the empty
list (pandas returns NaN there, which every caller below guards against). -/
def mean (xs : List ℚ) : ℚ := xs.sum / xs.length

/-- Sample variance with `ddof=1`, the square of what `Series.std()`
returns; `0` when fewer than two samples (pandas yields NaN there, and
every use site guards on that case separately). -/
def sampleVar (xs : List ℚ) : ℚ :=
  if xs.length ≤ 1 then 0
  else (xs.map (fun x => (x - mean xs) ^ 2)).sum / ((xs.length : ℚ) - 1)

/-- Population variance (denominator `n`), used only to state the spec's
"population standard deviation" claim. -/
def popVar (xs : List ℚ) : ℚ :=
  if xs.length = 0 then 0
  else (xs.map (fun x => (x - mean xs) ^ 2)).sum / (xs.length : ℚ)

/-- The z-score transform of `compute_stock_qb` (lines 602-607) and of the
generic z-scoring loop (lines 1256-1262): given `std` (the value of
`Series.std()`, passed explicitly because the square root is not rational),
emit all zeros when the std is NaN (fewer than two samples) or zero,
otherwise `(x - mean) / std` clipped to `[-6, 6]`. -/
def zScores (std : ℚ) (xs : List ℚ) : List ℚ :=
  if xs.length ≤ 1 ∨ std = 0 then xs.map (fun _ => 0)
  else xs.map (fun x => clip (-6) 6 ((x - mean xs) / std))

/-- The `z_map` helper (lines 1731-1737): same transform clipped to
`[-3, 3]`, feeding the percentile-style `stock_value` mapping. -/
def zMap (std : ℚ) (xs : List ℚ) : List ℚ :=
  if xs.length ≤ 1 ∨ std = 0 then xs.map (fun _ => 0)
  else xs.map (fun x => clip (-3) 3 ((x - mean xs) / std))

/-- Modelled from the spec's words only (for the refinement comparison in
claim C6): z-scores computed with the *population* standard deviation
`s`, zero when that deviation is zero or undefined. -/
def zScoresPopSpec (s : ℚ) (xs : List ℚ) : List ℚ :=
  if xs.length = 0 ∨ popVar xs = 0 then xs.map (fun _ => 0)
  else xs.map (fun x => clip (-6) 6 ((x - mean xs) / s))

/-- The spec's claim C6 for one metric list: some nonnegative `s` squaring
to the population variance yields exactly the emitted z-scores. -/
def PopZClaimHolds (xs zs : List ℚ) : Prop :=
  ∃ s : ℚ, 0 ≤ s ∧ s ^ 2 = popVar xs ∧ zs = zScoresPopSpec s xs

/-! ## The volatility & market blender (`apply_volatility_multiplier`) -/

/-- One input row of `apply_volatility_multiplier` (lines 25-406).
Numeric cells are already coerced (`to_numeric(...).fillna(...)`), string
columns are pre-reduced to the Boolean facts the function extracts from
them, and `Option` marks a NaN/absent cell:
* `week` — `to_numeric(res["week"]).fillna(0).astype(int)`;
* `hasGameDate` — `res["__game_date"].notna()`;
* `playoffFlag` — `is_playoff` truthy;
* `gameTypePlayoff` — `game_type` contains "post" or "playoff";
* `eventSuper` — `event` contains "super";
* `primetimeFlag` — any of `is_primetime`/`primetime`/`primetime_flag` truthy;
* `gameDateWeekday` — weekday of `__game_date` (`none` when NaT);
* `kickoffHour` — parsed hour of the kickoff-time column (`none` when absent);
* `isGameday` — the `is_gameday` cell; `true` also models a missing
  `is_gameday` column (then the code never applies decay);
* `projYards`/`projTds`/`projInts` — `none` models an absent or NaN
  projection cell. -/
structure VRow where
  week : Int
  hasGameDate : Bool
  playoffFlag : Bool
  gameTypePlayoff : Bool
  eventSuper : Bool
  primetimeFlag : Bool
  gameDateWeekday : Option Nat
  kickoffHour : Option Int
  isGameday : Bool
  tradingVolume : ℚ
  sentimentScore : ℚ
  weeklyChange : ℚ
  price : ℚ
  zEpaPerPlay : ℚ
  zCpoe : ℚ
  passYards : ℚ
  projYards : Option ℚ
  passTds : ℚ
  projTds : Option ℚ
  ints : ℚ
  projInts : Option ℚ
  deriving Repr, DecidableEq, Inhabited

/-- `has_game` (lines 54-58): week > 0 or a parsed game date exists. -/
def hasGame (r : VRow) : Bool := (0 < r.week) || r.hasGameDate

/-- The combined playoff mask (lines 62-84). -/
def playoffMask (r : VRow) : Bool := r.playoffFlag || r.gameTypePlayoff || r.eventSuper

/-- The combined primetime mask (lines 87-111): explicit flags, a
Monday/Thursday/Sunday game date, or an 18:00-23:00 kickoff hour. -/
def primetimeMask (r : VRow) : Bool :=
  r.primetimeFlag
    || (match r.gameDateWeekday with
        | some d => d = 0 || d = 3 || d = 6
        | none => false)
    || (match r.kickoffHour with
        | some h => (18 ≤ h) && (h ≤ 23)
        | none => false)

/-- The context multiplier exactly as built sequentially in lines 43-113:
start at 1.0, raise game rows to 1.5, set playoff rows to 2.0, then raise
primetime rows to at least 1.75. -/
def multiplierOf (r : VRow) : ℚ :=
  let m1 : ℚ := if hasGame r then 3 / 2 else 1
  let m2 : ℚ := if playoffMask r then 2 else m1
  if primetimeMask r then max m2 (7 / 4) else m2

/-- `sentiment_factor = (1 + 0.1 * sentiment_score).clip(0.8, 1.2)`
(line 136). -/
def sentimentFactorOf (r : VRow) : ℚ :=
  clip (4 / 5) (6 / 5) (1 + r.sentimentScore / 10)

/-- Sign-aware sentiment application of the normal path (lines 252-257):
non-negative changes are multiplied by the sentiment factor, negative ones
divided by it. -/
def perfOf (r : VRow) : ℚ :=
  if 0 ≤ r.weeklyChange then r.weeklyChange * sentimentFactorOf r
  else r.weeklyChange / sentimentFactorOf r

/-- One projection delta of the fallback path (lines 175-192): relative
miss against the projection when it is present and nonzero, otherwise the
flat `missing_penalty = -0.5`. -/
def projDelta (actual : ℚ) (proj : Option ℚ) : ℚ :=
  match proj with
  | none => -(1 / 2)
  | some p => if p = 0 then -(1 / 2) else (actual - p) / p

/-- `projection_delta = 0.20*delta_yards + 0.15*delta_tds - 0.20*delta_ints`
(line 194). -/
def projectionDeltaOf (r : VRow) : ℚ :=
  (1 / 5) * projDelta r.passYards r.projYards
    + (3 / 20) * projDelta r.passTds r.projTds
    - (1 / 5) * projDelta r.ints r.projInts

/-- `raw_alt = 0.35*z_epa + 0.25*z_cpoe + projection_delta` (line 202). -/
def rawAltOf (r : VRow) : ℚ :=
  (7 / 20) * r.zEpaPerPlay + (1 / 4) * r.zCpoe + projectionDeltaOf r

/-- Trading-volume normalisation of the projection path (lines 218-227):
`tvStd` is the value of `tv.std()` (`none` for NaN); zero unless the std
is defined and nonzero. -/
def tvNormA (tvStd : Option ℚ) (tvMean tv : ℚ) : ℚ :=
  match tvStd with
  | none => 0
  | some s => if s = 0 then 0 else (tv - tvMean) / s

/-- Trading-volume normalisation of the normal path (lines 265-271):
zero unless the std is defined and strictly positive. -/
def tvNormB (tvStd : Option ℚ) (tvMean tv : ℚ) : ℚ :=
  match tvStd with
  | none => 0
  | some s => if 0 < s then (tv - tvMean) / s else 0

/-- `market_change = 0.02*tv_norm + 0.01*sentiment_score`
(lines 228 and 272). -/
def marketChangeOf (tvNorm : ℚ) (r : VRow) : ℚ :=
  (1 / 50) * tvNorm + (1 / 100) * r.sentimentScore

/-- Off-season mask (lines 346-357): `is_gameday` falsy and not playoff. -/
def offseasonOf (r : VRow) : Bool := (!r.isGameday) && (!playoffMask r)

/-- One output row: the diagnostic columns persisted by
`apply_volatility_multiplier` (lines 359-404), with the roundings the code
performs on each. -/
structure VOut where
  rawChange : ℚ
  multiplier : ℚ
  sentimentFactor : ℚ
  performanceChange : ℚ
  marketChange : ℚ
  marketChangeAmplified : ℚ
  applied : ℚ
  cappedChange : ℚ
  offseasonDecayApplied : Bool
  newPrice : ℚ
  deriving Repr, DecidableEq, Inhabited

/-- Assemble the persisted row: `cappedChange` is the 6-decimal rounding of
the computed capped change, `newPrice = price * (1 + cappedChange)` with
the 0.995 off-season decay (lines 374-400), and the final price is rounded
to 4 decimals exactly when the input had a `trading_volume` column
(`hadTV`, lines 397-400). -/
def mkVOut (hadTV : Bool) (r : VRow)
    (rawChange perf market applied capped : ℚ) : VOut :=
  let cappedR := roundQ 6 capped
  let npRaw := r.price * (1 + cappedR)
  let npDecayed := if offseasonOf r then npRaw * (199 / 200) else npRaw
  { rawChange := roundQ 6 rawChange
    multiplier := roundQ 3 (multiplierOf r)
    sentimentFactor := roundQ 4 (sentimentFactorOf r)
    performanceChange := roundQ 6 perf
    marketChange := roundQ 6 market
    marketChangeAmplified := roundQ 6 (market * multiplierOf r)
    applied := roundQ 6 applied
    cappedChange := cappedR
    offseasonDecayApplied := offseasonOf r
    newPrice := if hadTV then roundQ 4 npDecayed else npDecayed }

/-- Per-row output on the projection-fallback path (taken when
`weekly_change` is uniformly zero, lines 155-247): 70/30 blend of
`raw_alt` and the multiplier-amplified market term, capped to `±0.2`. -/
def rowOutA (tvStd : Option ℚ) (tvMean : ℚ) (hadTV : Bool) (r : VRow) : VOut :=
  let perf := rawAltOf r
  let market := marketChangeOf (tvNormA tvStd tvMean r.tradingVolume) r
  let applied := (7 / 10) * perf + (3 / 10) * (market * multiplierOf r)
  let capped := clip (-(1 / 5)) (1 / 5) applied
  mkVOut hadTV r perf perf market applied capped

/-- Per-row output on the normal path (lines 248-338).  `n` is the batch
size: a single-row batch takes the legacy `performance * multiplier` rule
capped to `±0.2`; a multi-row batch takes the 70/30 blend smoothed by
`0.25 * tanh(2.5 * total)`, except that rows whose raw
`performance * multiplier` exceeds `0.2` in magnitude while the upstream
`weekly_change` magnitude is at least `0.2` are hard-clamped to `±0.2`. -/
def rowOutB (tanhQ : ℚ → ℚ) (tvStd : Option ℚ) (tvMean : ℚ) (hadTV : Bool)
    (n : ℕ) (r : VRow) : VOut :=
  let perf := perfOf r
  let market := marketChangeOf (tvNormB tvStd tvMean r.tradingVolume) r
  if n = 1 then
    let applied := perf * multiplierOf r
    let capped := clip (-(1 / 5)) (1 / 5) applied
    mkVOut hadTV r r.weeklyChange perf market applied capped
  else
    let total := (7 / 10) * perf + (3 / 10) * (market * multiplierOf r)
    let tanhSmoothed := (1 / 4) * tanhQ ((5 / 2) * total)
    let rawMult := perf * multiplierOf r
    let capped :=
      if 1 / 5 < |rawMult| ∧ 1 / 5 ≤ |r.weeklyChange| then
        clip (-(1 / 5)) (1 / 5) rawMult
      else tanhSmoothed
    mkVOut hadTV r r.weeklyChange perf market total capped

/-- `apply_volatility_multiplier` with a price column supplied.  `tanhQ`
stands for `math.tanh`; `tvStd` is the value of
`trading_volume.std()` (`none` when NaN, i.e. fewer than two rows);
`hadTV` records whether the input had a `trading_volume` column. -/
def applyVolatility (tanhQ : ℚ → ℚ) (tvStd : Option ℚ) (hadTV : Bool)
    (rows : List VRow) : List VOut :=
  let tvMean := mean (rows.map VRow.tradingVolume)
  if rows.all (fun r => r.weeklyChange == 0) then
    rows.map (rowOutA tvStd tvMean hadTV)
  else
    rows.map (rowOutB tanhQ tvStd tvMean hadTV rows.length)

/-- Row `i` of the blender's output (`default` out of range). -/
def outAt (tanhQ : ℚ → ℚ) (tvStd : Option ℚ) (hadTV : Bool)
    (rows : List VRow) (i : ℕ) : VOut :=
  (applyVolatility tanhQ tvStd hadTV rows).getD i default

/-! ## Position scoring functions (lines 435-563 and 1551-1567) -/

/-- One row as seen by the per-position scoring functions: the volume
counters plus the canonical z-scored metrics each formula reads via
`row.get(..., 0)` (an absent column reads as 0). -/
structure PosRow where
  position : String
  passAttempts : ℚ
  rushAttempts : ℚ
  targets : ℚ
  zEpaPerPlay : ℚ
  zCpoe : ℚ
  zPassYards : ℚ
  zPassTds : ℚ
  zRushYards : ℚ
  zRushTds : ℚ
  zRushEpaPerPlay : ℚ
  zRecEpaPerTarget : ℚ
  zRecYards : ℚ
  zRecTds : ℚ
  zTargets : ℚ
  zYardsPerRouteRun : ℚ
  zCatchRate : ℚ
  deriving Repr, DecidableEq, Inhabited

/-- `compute_qb_stock` (lines 435-470): `None` below 10 pass attempts,
otherwise the balanced blend of passing and rushing z-scores.  Note the
formula reads no interception z-score. -/
def computeQbStock (r : PosRow) : Option ℚ :=
  if r.passAttempts < 10 then none
  else some ((1 / 5) * r.zEpaPerPlay + (3 / 20) * r.zCpoe
    + (1 / 5) * r.zPassYards + (1 / 4) * r.zPassTds
    + (1 / 5) * (r.zRushYards + r.zRushTds))

/-- `compute_rb_stock` (lines 473-503). -/
def computeRbStock (r : PosRow) : ℚ :=
  if r.rushAttempts < 1 ∧ r.targets < 1 then 0
  else (1 / 4) * r.zRushEpaPerPlay + (1 / 4) * r.zRushYards
    + (1 / 5) * r.zRushTds + (3 / 20) * r.zRecEpaPerTarget
    + (3 / 20) * r.zRecYards

/-- `compute_wr_stock` (lines 506-533). -/
def computeWrStock (r : PosRow) : ℚ :=
  if r.targets < 1 then 0
  else (1 / 4) * r.zRecEpaPerTarget + (1 / 4) * r.zRecYards
    + (1 / 4) * r.zRecTds + (3 / 20) * r.zTargets
    + (1 / 10) * r.zYardsPerRouteRun

/-- `compute_te_stock` (lines 536-563). -/
def computeTeStock (r : PosRow) : ℚ :=
  if r.targets < 1 then 0
  else (1 / 4) * r.zRecEpaPerTarget + (1 / 4) * r.zRecYards
    + (1 / 4) * r.zRecTds + (3 / 20) * r.zTargets
    + (1 / 10) * r.zCatchRate

/-- `_compute_pos_score` (lines 1551-1565): the final position dispatch
whose result *overwrites* `weekly_change` at line 1567.  A `None` QB score
and every unrecognised position map to 0. -/
def computePosScore (r : PosRow) : ℚ :=
  if r.position = "QB" then (computeQbStock r).getD 0
  else if r.position = "RB" then computeRbStock r
  else if r.position = "WR" then computeWrStock r
  else if r.position = "TE" then computeTeStock r
  else 0

/-! ## The QB batch pipeline feeding claim C2

`compute_player_stock_summary` z-scores each stat column over the batch
(`compute_stock_qb`, lines 589-608), dispatches `_compute_pos_score` per
row into `weekly_change` (line 1567, rounded to 4 decimals at line 1648),
and hands the result to `apply_volatility_multiplier` (line 1972). -/

/-- Raw per-game QB input stats (one summary-pipeline row; every stat the
QB path touches, already alias-normalised and numerically coerced). -/
structure QBIn where
  player : String
  position : String
  week : Int
  passAttempts : ℚ
  passYards : ℚ
  passTds : ℚ
  ints : ℚ
  rushYards : ℚ
  rushTds : ℚ
  epaPerPlay : ℚ
  cpoe : ℚ
  price : ℚ
  deriving Repr, DecidableEq, Inhabited

/-- z-score one stat column of a QB batch; `std` is the column's
`Series.std()` value, as in `zScores`. -/
def zColumn (std : ℚ) (f : QBIn → ℚ) (batch : List QBIn) : List ℚ :=
  zScores std (batch.map f)

/-- The position rows the final dispatch sees, with each canonical z-column
computed over the batch (receiving/rushing-efficiency z-columns are 0 for a
pure passing input, as no such stat columns exist). -/
def mkPosRows (sEpa sCpoe sPassY sPassT sRushY sRushT : ℚ)
    (batch : List QBIn) : List PosRow :=
  (List.range batch.length).map (fun i =>
    let b := batch.getD i default
    { position := b.position
      passAttempts := b.passAttempts
      rushAttempts := 0
      targets := 0
      zEpaPerPlay := (zColumn sEpa QBIn.epaPerPlay batch).getD i 0
      zCpoe := (zColumn sCpoe QBIn.cpoe batch).getD i 0
      zPassYards := (zColumn sPassY QBIn.passYards batch).getD i 0
      zPassTds := (zColumn sPassT QBIn.passTds batch).getD i 0
      zRushYards := (zColumn sRushY QBIn.rushYards batch).getD i 0
      zRushTds := (zColumn sRushT QBIn.rushTds batch).getD i 0
      zRushEpaPerPlay := 0
      zRecEpaPerTarget := 0
      zRecYards := 0
      zRecTds := 0
      zTargets := 0
      zYardsPerRouteRun := 0
      zCatchRate := 0 })

/-- The blender input row the summary pipeline builds for a QB game record:
`weekly_change` is the 4-decimal rounding of the dispatched position score,
the z-efficiency columns come from the batch z-scoring, no projection or
context columns are present, and `is_gameday` is absent (`true`). -/
def mkVRow (b : QBIn) (wc zEpa zCpoe : ℚ) : VRow :=
  { week := b.week
    hasGameDate := false
    playoffFlag := false
    gameTypePlayoff := false
    eventSuper := false
    primetimeFlag := false
    gameDateWeekday := none
    kickoffHour := none
    isGameday := true
    tradingVolume := 0
    sentimentScore := 0
    weeklyChange := wc
    price := b.price
    zEpaPerPlay := zEpa
    zCpoe := zCpoe
    passYards := b.passYards
    projYards := none
    passTds := b.passTds
    projTds := none
    ints := b.ints
    projInts := none }

/-- The summary pipeline from raw QB stats to the blender's committed
`rawChange` column: z-score the batch, dispatch `_compute_pos_score` into
`weekly_change` (rounded to 4 decimals), then run
`apply_volatility_multiplier` and read `rawChange`. -/
def qbSummaryRawChanges (sEpa sCpoe sPassY sPassT sRushY sRushT : ℚ)
    (tanhQ : ℚ → ℚ) (batch : List QBIn) : List ℚ :=
  let posRows := mkPosRows sEpa sCpoe sPassY sPassT sRushY sRushT batch
  let vrows := (List.range batch.length).map (fun i =>
    mkVRow (batch.getD i default)
      (roundQ 4 (computePosScore (posRows.getD i default)))
      ((zColumn sEpa QBIn.epaPerPlay batch).getD i 0)
      ((zColumn sCpoe QBIn.cpoe batch).getD i 0))
  (applyVolatility tanhQ none false vrows).map VOut.rawChange

/-! ## Momentum adjuster (lines 1754-1773) -/

/-- `groupby("player")["z_epa_per_play"].shift(1).fillna(0.0)` for one
player's rows already sorted by week: each row sees the previous row's
z-efficiency, the first row sees 0. -/
def lastZList (zs : List ℚ) : List ℚ := 0 :: zs.dropLast

/-- `last_game_delta = (_last_z_epa * 0.3).round(6)` (line 1761). -/
def lastGameDeltas (zs : List ℚ) : List ℚ :=
  (lastZList zs).map (fun z => roundQ 6 (z * (3 / 10)))

/-- `stock_value_adj = (stock_value + last_game_delta).round(4)`
(lines 1771-1773), per player with weeks aligned. -/
def stockValueAdjList (svs zs : List ℚ) : List ℚ :=
  List.zipWith (fun sv d => roundQ 4 (sv + d)) svs (lastGameDeltas zs)

/-! ## Input validation (lines 1171-1219) -/

/-- One input row at the validation boundary: the stripped player name,
the `epa_per_play` cell (`none` = NaN or absent), the coerced integer
`plays`, and the cells of every `z_`-prefixed column. -/
structure InRow where
  player : String
  epaPerPlay : Option ℚ
  plays : Int
  zFields : List (Option ℚ)
  deriving Repr, DecidableEq, Inhabited

/-- `_is_valid_row` (lines 1178-1201): a non-empty player name together
with at least one usable metric — a non-NaN `epa_per_play`, `plays > 0`,
or any non-NaN `z_`-prefixed field. -/
def isValidRow (r : InRow) : Bool :=
  (r.player ≠ "") && (r.epaPerPlay.isSome || (0 < r.plays) || r.zFields.any Option.isSome)

/-- The validation guardrail (lines 1203-1216): drop invalid rows; if no
valid row remains, abort via `sys.exit(3)` instead of continuing. -/
def validateBatch (rows : List InRow) : Except Nat (List InRow) :=
  let valid := rows.filter isValidRow
  if valid.length = 0 then Except.error 3 else Except.ok valid

/-! ## Price/history timeline builder (lines 2441-2664) -/

/-- One committed price point, with its (possibly synthesised) calendar
date reduced to a day number and its diagnostic payload reduced to the
fields claim C7 tracks. -/
structure CommitPoint where
  day : ℤ
  price : ℚ
  week : ℤ
  confidence : ℚ
  deriving Repr, DecidableEq, Inhabited

/-- One emitted timeline row; `none` in `week`/`stock`/`confidence` models
the empty-string cells interpolated points are written with. -/
structure TimelineEntry where
  day : ℤ
  price : ℚ
  week : Option ℤ
  stock : Option ℚ
  confidence : Option ℚ
  deriving Repr, DecidableEq, Inhabited

/-- The committed entry appended for a game row (lines 2566-2606): price
rounded to 4 decimals, with week/stock/confidence populated. -/
def commitEntry (c : CommitPoint) : TimelineEntry :=
  { day := c.day
    price := roundQ 4 c.price
    week := some c.week
    stock := some (roundQ 4 c.price)
    confidence := some c.confidence }

/-- Daily interpolated entries between two adjacent committed points
(lines 2608-2637): when the dates are `days > 1` apart, one point per
intermediate day at `prev + (cur - prev) * d / days`, rounded to 4
decimals, with empty week/stock/confidence cells. -/
def interpEntries (c0 c1 : CommitPoint) : List TimelineEntry :=
  let days : ℤ := c1.day - c0.day
  if 1 < days then
    (List.range (days - 1).toNat).map (fun k : ℕ =>
      { day := c0.day + ((k : ℤ) + 1)
        price := roundQ 4 (c0.price + (c1.price - c0.price) * ((k : ℚ) + 1) / (days : ℚ))
        week := none
        stock := none
        confidence := none })
  else []

/-- Tail of the timeline after an already-emitted committed point. -/
def buildTimelineGo (prev : CommitPoint) : List CommitPoint → List TimelineEntry
  | [] => []
  | c :: rest => interpEntries prev c ++ commitEntry c :: buildTimelineGo c rest

/-- One player's timeline in chronological order (the code appends the
interpolated points after each committed row and sorts the whole table by
timestamp at line 2663; for increasing dates that is this ordering). -/
def buildTimeline : List CommitPoint → List TimelineEntry
  | [] => []
  | c :: rest => commitEntry c :: buildTimelineGo c rest

/-! ## General lemmas about the numeric helpers -/

lemma round_mono_rat {a b : ℚ} (h : a ≤ b) : round a ≤ round b := by
  rw [round_eq, round_eq]
  exact Int.floor_le_floor (by linarith)

lemma roundQ_le_of_le {n : ℕ} {x : ℚ} {k : ℤ} (h : x ≤ (k : ℚ) / 10 ^ n) :
    roundQ n x ≤ (k : ℚ) / 10 ^ n := by
  have h10 : (0 : ℚ) < 10 ^ n := by positivity
  have hx : x * 10 ^ n ≤ (k : ℚ) := (le_div_iff h10).mp h
  have hr : round (x * 10 ^ n) ≤ k := by
    have := round_mono_rat hx
    rwa [round_intCast] at this
  unfold roundQ
  exact (div_le_div_right h10).mpr (by exact_mod_cast hr)

lemma le_roundQ_of_le {n : ℕ} {x : ℚ} {k : ℤ} (h : (k : ℚ) / 10 ^ n ≤ x) :
    (k : ℚ) / 10 ^ n ≤ roundQ n x := by
  have h10 : (0 : ℚ) < 10 ^ n := by positivity
  have hx : (k : ℚ) ≤ x * 10 ^ n := (div_le_iff h10).mp h
  have hr : k ≤ round (x * 10 ^ n) := by
    have := round_mono_rat hx
    rwa [round_intCast] at this
  unfold roundQ
  exact (div_le_div_right h10).mpr (by exact_mod_cast hr)

lemma abs_roundQ_le {n : ℕ} {x : ℚ} {k : ℤ} (h : |x| ≤ (k : ℚ) / 10 ^ n) :
    |roundQ n x| ≤ (k : ℚ) / 10 ^ n := by
  rcases abs_le.mp h with ⟨h1, h2⟩
  refine abs_le.mpr ⟨?_, roundQ_le_of_le h2⟩
  have hneg : ((-k : ℤ) : ℚ) / 10 ^ n ≤ x := by
    rw [Int.cast_neg, neg_div]
    exact h1
  have := le_roundQ_of_le hneg
  rwa [Int.cast_neg, neg_div] at this

lemma abs_roundQ6_le_fifth {x : ℚ} (h : |x| ≤ 1 / 5) : |roundQ 6 x| ≤ 1 / 5 := by
  have hk : ((200000 : ℤ) : ℚ) / 10 ^ 6 = 1 / 5 := by norm_num
  rw [← hk] at h ⊢
  exact abs_roundQ_le h

lemma abs_roundQ6_le_quarter {x : ℚ} (h : |x| ≤ 1 / 4) : |roundQ 6 x| ≤ 1 / 4 := by
  have hk : ((250000 : ℤ) : ℚ) / 10 ^ 6 = 1 / 4 := by norm_num
  rw [← hk] at h ⊢
  exact abs_roundQ_le h

lemma roundQ_intMul (n : ℕ) (k : ℤ) : roundQ n ((k : ℚ) / 10 ^ n) = (k : ℚ) / 10 ^ n := by
  have h10 : (10 : ℚ) ^ n ≠ 0 := by positivity
  unfold roundQ
  rw [div_mul_cancel₀ _ h10, round_intCast]

lemma exists_int_of_roundQ_fix {n : ℕ} {x : ℚ} (h : roundQ n x = x) :
    ∃ k : ℤ, x = (k : ℚ) / 10 ^ n := by
  refine ⟨round (x * 10 ^ n), ?_⟩
  conv_lhs => rw [← h]
  rfl

lemma abs_clip_le {B x : ℚ} (hB : 0 ≤ B) : |clip (-B) B x| ≤ B :=
  abs_le.mpr ⟨le_max_left _ _, max_le (by linarith) (min_le_left _ _)⟩

lemma getD_map_of_lt {α β : Type} (f : α → β) (a : α) (b : β) {l : List α} {i : ℕ}
    (h : i < l.length) : (l.map f).getD i b = f (l.getD i a) := by
  simp [List.getD_eq_getElem?_getD, List.getElem?_map, List.getElem?_eq_getElem h]

/-! ## Branch lemmas for the blender -/

/-- The projection-fallback condition: `weekly_change` is uniformly zero
across the batch. -/
def AllZero (rows : List VRow) : Prop := ∀ r ∈ rows, r.weeklyChange = 0

lemma applyVolatility_allZero {tanhQ : ℚ → ℚ} {tvStd : Option ℚ} {hadTV : Bool}
    {rows : List VRow} (hz : AllZero rows) :
    applyVolatility tanhQ tvStd hadTV rows
      = rows.map (rowOutA tvStd (mean (rows.map VRow.tradingVolume)) hadTV) := by
  unfold applyVolatility
  rw [if_pos]
  simpa [List.all_eq_true, AllZero] using hz

lemma applyVolatility_notAllZero {tanhQ : ℚ → ℚ} {tvStd : Option ℚ} {hadTV : Bool}
    {rows : List VRow} (hz : ¬AllZero rows) :
    applyVolatility tanhQ tvStd hadTV rows
      = rows.map (rowOutB tanhQ tvStd (mean (rows.map VRow.tradingVolume)) hadTV rows.length) := by
  unfold applyVolatility
  rw [if_neg]
  simpa [List.all_eq_true, AllZero] using hz

lemma outAt_allZero {tanhQ : ℚ → ℚ} {tvStd : Option ℚ} {hadTV : Bool}
    {rows : List VRow} {i : ℕ} (hz : AllZero rows) (h : i < rows.length) :
    outAt tanhQ tvStd hadTV rows i
      = rowOutA tvStd (mean (rows.map VRow.tradingVolume)) hadTV (rows.getD i default) := by
  unfold outAt
  rw [applyVolatility_allZero hz, getD_map_of_lt _ default _ h]

lemma outAt_notAllZero {tanhQ : ℚ → ℚ} {tvStd : Option ℚ} {hadTV : Bool}
    {rows : List VRow} {i : ℕ} (hz : ¬AllZero rows) (h : i < rows.length) :
    outAt tanhQ tvStd hadTV rows i
      = rowOutB tanhQ tvStd (mean (rows.map VRow.tradingVolume)) hadTV rows.length
          (rows.getD i default) := by
  unfold outAt
  rw [applyVolatility_notAllZero hz, getD_map_of_lt _ default _ h]

lemma rowOutA_cappedChange (tvStd : Option ℚ) (tvMean : ℚ) (hadTV : Bool) (r : VRow) :
    (rowOutA tvStd tvMean hadTV r).cappedChange
      = roundQ 6 (clip (-(1 / 5)) (1 / 5)
          ((7 / 10) * rawAltOf r
            + (3 / 10) * (marketChangeOf (tvNormA tvStd tvMean r.tradingVolume) r
                * multiplierOf r))) := rfl

lemma rowOutA_multiplier (tvStd : Option ℚ) (tvMean : ℚ) (hadTV : Bool) (r : VRow) :
    (rowOutA tvStd tvMean hadTV r).multiplier = roundQ 3 (multiplierOf r) := rfl

lemma rowOutB_multiplier (tanhQ : ℚ → ℚ) (tvStd : Option ℚ) (tvMean : ℚ) (hadTV : Bool)
    (n : ℕ) (r : VRow) :
    (rowOutB tanhQ tvStd tvMean hadTV n r).multiplier = roundQ 3 (multiplierOf r) := by
  unfold rowOutB
  split <;> rfl

lemma rowOutB_cappedChange_one (tanhQ : ℚ → ℚ) (tvStd : Option ℚ) (tvMean : ℚ)
    (hadTV : Bool) (r : VRow) :
    (rowOutB tanhQ tvStd tvMean hadTV 1 r).cappedChange
      = roundQ 6 (clip (-(1 / 5)) (1 / 5) (perfOf r * multiplierOf r)) := rfl

/-- The multiplier rounded to three decimals is the multiplier itself. -/
lemma roundQ3_multiplierOf (r : VRow) : roundQ 3 (multiplierOf r) = multiplierOf r := by
  unfold multiplierOf
  rcases hpl : playoffMask r <;> rcases hpt : primetimeMask r <;> rcases hg : hasGame r <;>
    simp only [hpl, hpt, hg, if_true, if_false, Bool.false_eq_true] <;>
    norm_num [roundQ, round_eq, max_def]

lemma mkVOut_cappedChange (hadTV : Bool) (r : VRow) (rc p m a c : ℚ) :
    (mkVOut hadTV r rc p m a c).cappedChange = roundQ 6 c := rfl

lemma mkVOut_newPrice (hadTV : Bool) (r : VRow) (rc p m a c : ℚ) :
    (mkVOut hadTV r rc p m a c).newPrice
      = (if hadTV then
          roundQ 4 (r.price * (1 + roundQ 6 c) * (if offseasonOf r then 199 / 200 else 1))
        else r.price * (1 + roundQ 6 c) * (if offseasonOf r then 199 / 200 else 1)) := by
  unfold mkVOut
  rcases offseasonOf r <;> rcases hadTV <;> simp

lemma rowOutB_cappedChange_ne_one (tanhQ : ℚ → ℚ) (tvStd : Option ℚ) (tvMean : ℚ)
    (hadTV : Bool) {n : ℕ} (hn : n ≠ 1) (r : VRow) :
    (rowOutB tanhQ tvStd tvMean hadTV n r).cappedChange
      = roundQ 6
          (if 1 / 5 < |perfOf r * multiplierOf r| ∧ 1 / 5 ≤ |r.weeklyChange| then
            clip (-(1 / 5)) (1 / 5) (perfOf r * multiplierOf r)
          else (1 / 4) * tanhQ ((5 / 2)
            * ((7 / 10) * perfOf r
              + (3 / 10) * (marketChangeOf (tvNormB tvStd tvMean r.tradingVolume) r
                  * multiplierOf r)))) := by
  unfold rowOutB
  rw [if_neg hn]
  rfl

/-- A neutral blender row (no game, no context flags, empty metrics),
the base for the concrete batches used in witnesses and counterexamples. -/
def baseRow : VRow :=
  { week := 0
    hasGameDate := false
    playoffFlag := false
    gameTypePlayoff := false
    eventSuper := false
    primetimeFlag := false
    gameDateWeekday := none
    kickoffHour := none
    isGameday := true
    tradingVolume := 0
    sentimentScore := 0
    weeklyChange := 0
    price := 100
    zEpaPerPlay := 0
    zCpoe := 0
    passYards := 0
    projYards := none
    passTds := 0
    projTds := none
    ints := 0
    projInts := none }

/-- **C5.** For every row, the committed context multiplier takes exactly
one of the values 2.0, 1.75, 1.5, 1.0, selected by precedence
playoff > primetime > any scheduled game > rest, with only the
highest-precedence matching condition applying. -/
theorem C5_multiplier_precedence (tanhQ : ℚ → ℚ) (tvStd : Option ℚ) (hadTV : Bool)
    (rows : List VRow) (i : ℕ) (h : i < rows.length) :
    (outAt tanhQ tvStd hadTV rows i).multiplier
        = (if playoffMask (rows.getD i default) then 2
          else if primetimeMask (rows.getD i default) then 7 / 4
          else if hasGame (rows.getD i default) then 3 / 2 else 1)
    ∧ ((outAt tanhQ tvStd hadTV rows i).multiplier = 2
        ∨ (outAt tanhQ tvStd hadTV rows i).multiplier = 7 / 4
        ∨ (outAt tanhQ tvStd hadTV rows i).multiplier = 3 / 2
        ∨ (outAt tanhQ tvStd hadTV rows i).multiplier = 1) := by
  have hm : (outAt tanhQ tvStd hadTV rows i).multiplier
      = multiplierOf (rows.getD i default) := by
    by_cases hz : AllZero rows
    · rw [outAt_allZero hz h, rowOutA_multiplier, roundQ3_multiplierOf]
    · rw [outAt_notAllZero hz h, rowOutB_multiplier, roundQ3_multiplierOf]
  rw [hm]
  unfold multiplierOf
  rcases hpl : playoffMask (rows.getD i default) <;>
    rcases hpt : primetimeMask (rows.getD i default) <;>
    rcases hg : hasGame (rows.getD i default) <;>
    simp only [if_true, if_false, Bool.false_eq_true] <;>
    norm_num [max_def]

/-- Witness row for C5: a playoff game that is also primetime. -/
def c5Row : VRow := { baseRow with playoffFlag := true, primetimeFlag := true, week := 12 }

/-- Witness for C5: the playoff-and-primetime row gets exactly 2.0 (the
playoff value wins the precedence). -/
theorem C5_multiplier_precedence_witness :
    0 < ([c5Row] : List VRow).length
    ∧ (outAt (fun x => x) none false [c5Row] 0).multiplier = 2 := by
  refine ⟨by norm_num, ?_⟩
  have h := C5_multiplier_precedence (fun x => x) none false [c5Row] 0 (by norm_num)
  rw [h.1]
  norm_num [c5Row, baseRow, playoffMask]

/-- **C1.** Every committed `cappedChange` has magnitude at most 0.25;
whenever the hard-clamp condition applies (the unsmoothed
performance-times-multiplier magnitude exceeds 0.20 while the upstream
weekly-change magnitude is at least 0.20) it lies within ±0.20; and on the
single-record and projection-fallback paths it always lies within ±0.20.
The `tanhQ` hypothesis states the only fact used about `math.tanh`:
its values have magnitude at most 1. -/
theorem C1_cappedChange_bounds (tanhQ : ℚ → ℚ) (tvStd : Option ℚ) (hadTV : Bool)
    (rows : List VRow) (i : ℕ)
    (htanh : ∀ x : ℚ, |tanhQ x| ≤ 1) (h : i < rows.length) :
    |(outAt tanhQ tvStd hadTV rows i).cappedChange| ≤ 1 / 4
    ∧ ((1 / 5 < |perfOf (rows.getD i default) * multiplierOf (rows.getD i default)|
          ∧ 1 / 5 ≤ |(rows.getD i default).weeklyChange|) →
        |(outAt tanhQ tvStd hadTV rows i).cappedChange| ≤ 1 / 5)
    ∧ ((rows.length = 1 ∨ AllZero rows) →
        |(outAt tanhQ tvStd hadTV rows i).cappedChange| ≤ 1 / 5) := by
  by_cases hz : AllZero rows
  · rw [outAt_allZero hz h, rowOutA_cappedChange]
    have h5 := abs_roundQ6_le_fifth (abs_clip_le (x := (7 / 10) * rawAltOf (rows.getD i default)
      + (3 / 10) * (marketChangeOf
          (tvNormA tvStd (mean (rows.map VRow.tradingVolume)) (rows.getD i default).tradingVolume)
          (rows.getD i default) * multiplierOf (rows.getD i default))) (by norm_num))
    exact ⟨le_trans h5 (by norm_num), fun _ => h5, fun _ => h5⟩
  · by_cases hn : rows.length = 1
    · rw [outAt_notAllZero hz h, hn, rowOutB_cappedChange_one]
      have h5 := abs_roundQ6_le_fifth
        (abs_clip_le (x := perfOf (rows.getD i default) * multiplierOf (rows.getD i default))
          (by norm_num))
      exact ⟨le_trans h5 (by norm_num), fun _ => h5, fun _ => h5⟩
    · rw [outAt_notAllZero hz h, rowOutB_cappedChange_ne_one _ _ _ _ hn]
      by_cases hover : 1 / 5 < |perfOf (rows.getD i default) * multiplierOf (rows.getD i default)|
          ∧ 1 / 5 ≤ |(rows.getD i default).weeklyChange|
      · rw [if_pos hover]
        have h5 := abs_roundQ6_le_fifth
          (abs_clip_le (x := perfOf (rows.getD i default) * multiplierOf (rows.getD i default))
            (by norm_num))
        exact ⟨le_trans h5 (by norm_num), fun _ => h5,
          fun hc => (hc.elim (fun h1 => absurd h1 hn) (fun h1 => absurd h1 hz))⟩
      · rw [if_neg hover]
        have hq : |(1 / 4 : ℚ) * tanhQ ((5 / 2)
            * ((7 / 10) * perfOf (rows.getD i default)
              + (3 / 10) * (marketChangeOf
                  (tvNormB tvStd (mean (rows.map VRow.tradingVolume))
                    (rows.getD i default).tradingVolume)
                  (rows.getD i default) * multiplierOf (rows.getD i default))))| ≤ 1 / 4 := by
          rw [abs_mul]
          calc |(1 / 4 : ℚ)| * |tanhQ _| ≤ |(1 / 4 : ℚ)| * 1 :=
                mul_le_mul_of_nonneg_left (htanh _) (abs_nonneg _)
            _ = 1 / 4 := by norm_num
        have h4 := abs_roundQ6_le_quarter hq
        exact ⟨h4, fun hc => absurd hc hover,
          fun hc => (hc.elim (fun h1 => absurd h1 hn) (fun h1 => absurd h1 hz))⟩

/-- The spec scenario's single record: price 100, weekly change 0.20,
playoff context, no sentiment. -/
def scenarioRow : VRow := { baseRow with weeklyChange := 1 / 5, playoffFlag := true }

/-- Witness for C1 at a concrete single-record batch. -/
theorem C1_cappedChange_bounds_witness :
    (∀ x : ℚ, |(fun _ : ℚ => (0 : ℚ)) x| ≤ 1) ∧ 0 < ([scenarioRow] : List VRow).length
    ∧ |(outAt (fun _ : ℚ => (0 : ℚ)) none false [scenarioRow] 0).cappedChange| ≤ 1 / 5 := by
  refine ⟨fun x => by norm_num, by norm_num, ?_⟩
  have h := C1_cappedChange_bounds (fun _ : ℚ => (0 : ℚ)) none false [scenarioRow] 0
    (fun x => by norm_num) (by norm_num)
  exact h.2.2 (Or.inl (by norm_num))

lemma rowOutB_performanceChange (tanhQ : ℚ → ℚ) (tvStd : Option ℚ) (tvMean : ℚ)
    (hadTV : Bool) (n : ℕ) (r : VRow) :
    (rowOutB tanhQ tvStd tvMean hadTV n r).performanceChange = roundQ 6 (perfOf r) := by
  unfold rowOutB
  split <;> rfl

lemma rowOutB_applied_one (tanhQ : ℚ → ℚ) (tvStd : Option ℚ) (tvMean : ℚ)
    (hadTV : Bool) (r : VRow) :
    (rowOutB tanhQ tvStd tvMean hadTV 1 r).applied
      = roundQ 6 (perfOf r * multiplierOf r) := rfl

lemma mkVOut_offseason (hadTV : Bool) (r : VRow) (rc p m a c : ℚ) :
    (mkVOut hadTV r rc p m a c).offseasonDecayApplied = offseasonOf r := rfl

/-- **C10.** On the path where the batch's weekly change is not uniformly
zero, the committed performance term is sign-aware: weekly change times
the sentiment factor when the change is non-negative, divided by it when
negative, with `sentiment_factor = clip(1 + 0.1*score, 0.8, 1.2)`;
consequently positive sentiment moves a negative change strictly towards
zero (dampening) rather than amplifying it. -/
theorem C10_sign_aware_sentiment (tanhQ : ℚ → ℚ) (tvStd : Option ℚ) (hadTV : Bool)
    (rows : List VRow) (i : ℕ) (hz : ¬AllZero rows) (h : i < rows.length) :
    (outAt tanhQ tvStd hadTV rows i).performanceChange
        = roundQ 6 (perfOf (rows.getD i default))
    ∧ perfOf (rows.getD i default)
        = (if 0 ≤ (rows.getD i default).weeklyChange then
            (rows.getD i default).weeklyChange * sentimentFactorOf (rows.getD i default)
          else (rows.getD i default).weeklyChange / sentimentFactorOf (rows.getD i default))
    ∧ sentimentFactorOf (rows.getD i default)
        = clip (4 / 5) (6 / 5) (1 + (rows.getD i default).sentimentScore / 10)
    ∧ (0 < (rows.getD i default).sentimentScore →
        (rows.getD i default).weeklyChange < 0 →
        (rows.getD i default).weeklyChange < perfOf (rows.getD i default)
          ∧ perfOf (rows.getD i default) < 0) := by
  refine ⟨?_, rfl, rfl, ?_⟩
  · rw [outAt_notAllZero hz h, rowOutB_performanceChange]
  · intro hs hw
    have hone : 1 < sentimentFactorOf (rows.getD i default) := by
      unfold sentimentFactorOf clip
      have hy : 1 < 1 + (rows.getD i default).sentimentScore / 10 := by linarith
      have hmin : 1 < min (6 / 5) (1 + (rows.getD i default).sentimentScore / 10) :=
        lt_min (by norm_num) hy
      calc (1 : ℚ) < min (6 / 5) (1 + (rows.getD i default).sentimentScore / 10) := hmin
        _ ≤ max (4 / 5) (min (6 / 5) (1 + (rows.getD i default).sentimentScore / 10)) :=
            le_max_right _ _
    have hpos : (0 : ℚ) < sentimentFactorOf (rows.getD i default) := by linarith
    have hperf : perfOf (rows.getD i default)
        = (rows.getD i default).weeklyChange / sentimentFactorOf (rows.getD i default) := by
      unfold perfOf
      rw [if_neg (not_le.mpr hw)]
    constructor
    · rw [hperf, lt_div_iff hpos]
      nlinarith
    · rw [hperf]
      exact div_neg_of_neg_of_pos hw hpos

/-- Witness row for C10: a negative weekly change with positive sentiment. -/
def c10Row : VRow := { baseRow with weeklyChange := -(1 / 10), sentimentScore := 1 }

/-- Witness for C10 at a concrete batch. -/
theorem C10_sign_aware_sentiment_witness :
    ¬AllZero [c10Row] ∧ 0 < ([c10Row] : List VRow).length
    ∧ (outAt (fun x => x) none false [c10Row] 0).performanceChange
        = roundQ 6 (perfOf ([c10Row].getD 0 default)) := by
  have hz : ¬AllZero [c10Row] := by
    intro hz
    have := hz c10Row (by simp)
    norm_num [c10Row, baseRow] at this
  refine ⟨hz, by norm_num, ?_⟩
  exact (C10_sign_aware_sentiment (fun x => x) none false [c10Row] 0 hz (by norm_num)).1

/-- **C3 (amended).** For a single-record batch with a *nonzero* weekly
change, the blender takes the legacy path: the committed capped change is
`performance * multiplier` clipped to ±0.2 (committed at 6 decimals) and
the applied diagnostic is the unclipped product; in the spec's scenario
(price 100, weekly change 0.20, playoff, batch of one) this gives
applied 0.40, cappedChange 0.20, multiplier 2 and newPrice 120. -/
theorem C3_single_record_legacy (tanhQ : ℚ → ℚ) (tvStd : Option ℚ) (hadTV : Bool)
    (r : VRow) (hr : r.weeklyChange ≠ 0) :
    (outAt tanhQ tvStd hadTV [r] 0).cappedChange
        = roundQ 6 (clip (-(1 / 5)) (1 / 5) (perfOf r * multiplierOf r))
    ∧ (outAt tanhQ tvStd hadTV [r] 0).applied = roundQ 6 (perfOf r * multiplierOf r)
    ∧ ((outAt tanhQ tvStd hadTV [scenarioRow] 0).applied = 2 / 5
        ∧ (outAt tanhQ tvStd hadTV [scenarioRow] 0).cappedChange = 1 / 5
        ∧ (outAt tanhQ tvStd hadTV [scenarioRow] 0).multiplier = 2
        ∧ (outAt tanhQ tvStd hadTV [scenarioRow] 0).newPrice = 120) := by
  have hz : ¬AllZero [r] := by
    intro hz
    exact hr (hz r (by simp))
  have h0 : (0 : ℕ) < ([r] : List VRow).length := by norm_num
  have hs : ¬AllZero [scenarioRow] := by
    intro hz
    have := hz scenarioRow (by simp)
    norm_num [scenarioRow, baseRow] at this
  have hs0 : (0 : ℕ) < ([scenarioRow] : List VRow).length := by norm_num
  refine ⟨?_, ?_, ?_, ?_, ?_, ?_⟩
  · rw [outAt_notAllZero hz h0]
    simp only [List.length_cons, List.length_nil, List.getD_cons_zero]
    rw [rowOutB_cappedChange_one]
  · rw [outAt_notAllZero hz h0]
    simp only [List.length_cons, List.length_nil, List.getD_cons_zero]
    rw [rowOutB_applied_one]
  · rw [outAt_notAllZero hs hs0]
    simp only [List.length_cons, List.length_nil, List.getD_cons_zero]
    norm_num [rowOutB, mkVOut, perfOf, sentimentFactorOf, multiplierOf, clip,
      playoffMask, primetimeMask, hasGame, scenarioRow, baseRow, roundQ, round_eq]
  · rw [outAt_notAllZero hs hs0]
    simp only [List.length_cons, List.length_nil, List.getD_cons_zero]
    norm_num [rowOutB, mkVOut, perfOf, sentimentFactorOf, multiplierOf, clip,
      playoffMask, primetimeMask, hasGame, scenarioRow, baseRow, roundQ, round_eq]
  · rw [outAt_notAllZero hs hs0]
    simp only [List.length_cons, List.length_nil, List.getD_cons_zero]
    norm_num [rowOutB, mkVOut, perfOf, sentimentFactorOf, multiplierOf, clip,
      playoffMask, primetimeMask, hasGame, scenarioRow, baseRow, roundQ, round_eq]
  · rw [outAt_notAllZero hs hs0]
    simp only [List.length_cons, List.length_nil, List.getD_cons_zero]
    norm_num [rowOutB, mkVOut, perfOf, sentimentFactorOf, multiplierOf, clip,
      playoffMask, primetimeMask, hasGame, offseasonOf, scenarioRow, baseRow,
      roundQ, round_eq]

/-- Witness for C3 at the scenario row itself. -/
theorem C3_single_record_legacy_witness :
    scenarioRow.weeklyChange ≠ 0
    ∧ (outAt (fun x => x) none false [scenarioRow] 0).cappedChange
        = roundQ 6 (clip (-(1 / 5)) (1 / 5) (perfOf scenarioRow * multiplierOf scenarioRow)) := by
  have hr : scenarioRow.weeklyChange ≠ 0 := by norm_num [scenarioRow, baseRow]
  exact ⟨hr, (C3_single_record_legacy (fun x => x) none false scenarioRow hr).1⟩

/-- A single-record batch whose `weekly_change` is zero but whose
z-scored efficiency is 1: it takes the projection-fallback path, not the
legacy single-record rule. -/
def fallbackRow : VRow := { baseRow with zEpaPerPlay := 1 }

/-- Counterexample to C3's general clause: on this single-record batch the
committed capped change is `0.7 * performance = 0.1925`, not
`performance * multiplier` clipped to ±0.2 (which would be 0.2). -/
theorem C3_single_record_counterexample :
    ([fallbackRow] : List VRow).length = 1
    ∧ (outAt (fun x => x) none false [fallbackRow] 0).cappedChange = 77 / 400
    ∧ roundQ 6 (clip (-(1 / 5)) (1 / 5)
        ((outAt (fun x => x) none false [fallbackRow] 0).performanceChange
          * (outAt (fun x => x) none false [fallbackRow] 0).multiplier)) = 1 / 5
    ∧ (77 / 400 : ℚ) ≠ 1 / 5 := by
  refine ⟨by norm_num, ?_, ?_, by norm_num⟩ <;>
    norm_num [outAt, applyVolatility, rowOutA, mkVOut, rawAltOf, projectionDeltaOf,
      projDelta, marketChangeOf, tvNormA, multiplierOf, playoffMask, primetimeMask,
      hasGame, offseasonOf, clip, mean, fallbackRow, baseRow, roundQ, round_eq]

/-- **C4 (amended).** For every row,
`newPrice = oldPrice * (1 + cappedChange) * 0.995` exactly when the row is
an off-week (`is_gameday` falsy and not a playoff period) and
`newPrice = oldPrice * (1 + cappedChange)` otherwise, the decay factor
appearing exactly once and composing multiplicatively — except that when
the input batch carries a `trading_volume` column the committed price is
additionally rounded to 4 decimals. -/
theorem C4_decay_once (tanhQ : ℚ → ℚ) (tvStd : Option ℚ) (hadTV : Bool)
    (rows : List VRow) (i : ℕ) (h : i < rows.length) :
    (outAt tanhQ tvStd hadTV rows i).newPrice
        = (if hadTV then
            roundQ 4 ((rows.getD i default).price
              * (1 + (outAt tanhQ tvStd hadTV rows i).cappedChange)
              * (if offseasonOf (rows.getD i default) then 199 / 200 else 1))
          else (rows.getD i default).price
              * (1 + (outAt tanhQ tvStd hadTV rows i).cappedChange)
              * (if offseasonOf (rows.getD i default) then 199 / 200 else 1))
    ∧ (outAt tanhQ tvStd hadTV rows i).offseasonDecayApplied
        = offseasonOf (rows.getD i default)
    ∧ offseasonOf (rows.getD i default)
        = ((!(rows.getD i default).isGameday) && (!playoffMask (rows.getD i default))) := by
  by_cases hz : AllZero rows
  · rw [outAt_allZero hz h]
    unfold rowOutA
    rw [mkVOut_newPrice, mkVOut_cappedChange, mkVOut_offseason]
    exact ⟨rfl, rfl, rfl⟩
  · rw [outAt_notAllZero hz h]
    unfold rowOutB
    split
    · rw [mkVOut_newPrice, mkVOut_cappedChange, mkVOut_offseason]
      exact ⟨rfl, rfl, rfl⟩
    · rw [mkVOut_newPrice, mkVOut_cappedChange, mkVOut_offseason]
      exact ⟨rfl, rfl, rfl⟩

/-- Witness row for C4: an off-week row (no game, `is_gameday` false). -/
def offweekRow : VRow := { baseRow with weeklyChange := 1 / 10, isGameday := false }

/-- Witness for C4: on the off-week row the committed price is
`100 * 1.1 * 0.995 = 109.45`, the decay applied exactly once. -/
theorem C4_decay_once_witness :
    0 < ([offweekRow] : List VRow).length
    ∧ (outAt (fun x => x) none false [offweekRow] 0).newPrice = 2189 / 20 := by
  refine ⟨by norm_num, ?_⟩
  have h := (C4_decay_once (fun x => x) none false [offweekRow] 0 (by norm_num)).1
  rw [h]
  have hc : (outAt (fun x => x) none false [offweekRow] 0).cappedChange = 1 / 10 := by
    norm_num [outAt, applyVolatility, rowOutB, mkVOut, perfOf, sentimentFactorOf,
      multiplierOf, playoffMask, primetimeMask, hasGame, marketChangeOf, tvNormB,
      clip, mean, offweekRow, baseRow, roundQ, round_eq]
  rw [hc]
  norm_num [offseasonOf, playoffMask, offweekRow, baseRow]

/-- A gameweek row in a batch that carries a `trading_volume` column, with
a price whose updated value needs more than 4 decimals. -/
def tvRow : VRow :=
  { baseRow with weeklyChange := 1 / 10, tradingVolume := 5, price := 10000003 / 100000 }

/-- Counterexample to C4 as stated: with a `trading_volume` column present
the committed price is rounded to 4 decimals (110 here), so it differs
from `oldPrice * (1 + cappedChange)` (= 110.000033) even though no decay
applies. -/
theorem C4_decay_once_counterexample :
    offseasonOf tvRow = false
    ∧ (outAt (fun x => x) none true [tvRow] 0).newPrice = 110
    ∧ tvRow.price * (1 + (outAt (fun x => x) none true [tvRow] 0).cappedChange)
        = 110000033 / 1000000
    ∧ (110 : ℚ) ≠ 110000033 / 1000000 := by
  refine ⟨by norm_num [offseasonOf, playoffMask, tvRow, baseRow], ?_, ?_, by norm_num⟩ <;>
    norm_num [outAt, applyVolatility, rowOutB, mkVOut, perfOf, sentimentFactorOf,
      multiplierOf, playoffMask, primetimeMask, hasGame, marketChangeOf, tvNormB,
      offseasonOf, clip, mean, tvRow, baseRow, roundQ, round_eq]

/-! ## Claims about the stat normaliser -/

lemma sampleVar_zero_iff_of_std {xs : List ℚ} {s : ℚ}
    (hs : s ^ 2 = sampleVar xs) : sampleVar xs = 0 ↔ s = 0 := by
  constructor
  · intro hv
    rw [hv] at hs
    exact sq_eq_zero_iff.mp hs
  · intro h0
    rw [h0] at hs
    simpa using hs.symm

/-- **C6 (amended).** With `s` the genuine sample standard deviation
(ddof = 1) of the metric list — characterised by `0 ≤ s` and
`s² = sampleVar` — every emitted z-score equals `(x - mean) / s` clipped
to ±6 (±3 for the `z_map` feeding the percentile-style `stock_value`
mapping), and every z-score is 0 when the deviation is zero or undefined
(fewer than two samples). -/
theorem C6_zscore_sample_std (xs : List ℚ) (s : ℚ) (i : ℕ)
    (hs0 : 0 ≤ s) (hs : s ^ 2 = sampleVar xs) (h : i < xs.length) :
    (zScores s xs).getD i 0
        = (if xs.length ≤ 1 ∨ sampleVar xs = 0 then 0
          else clip (-6) 6 ((xs.getD i 0 - mean xs) / s))
    ∧ (zMap s xs).getD i 0
        = (if xs.length ≤ 1 ∨ sampleVar xs = 0 then 0
          else clip (-3) 3 ((xs.getD i 0 - mean xs) / s)) := by
  have hiff := sampleVar_zero_iff_of_std hs
  by_cases hg : xs.length ≤ 1 ∨ sampleVar xs = 0
  · have hg2 : xs.length ≤ 1 ∨ s = 0 := hg.imp id hiff.mp
    constructor
    · rw [if_pos hg]
      unfold zScores
      rw [if_pos hg2, getD_map_of_lt _ 0 _ h]
    · rw [if_pos hg]
      unfold zMap
      rw [if_pos hg2, getD_map_of_lt _ 0 _ h]
  · have hg2 : ¬(xs.length ≤ 1 ∨ s = 0) := fun hc => hg (hc.imp id hiff.mpr)
    constructor
    · rw [if_neg hg]
      unfold zScores
      rw [if_neg hg2, getD_map_of_lt _ 0 _ h]
    · rw [if_neg hg]
      unfold zMap
      rw [if_neg hg2, getD_map_of_lt _ 0 _ h]

/-- Witness for C6: the list `[0, 1, 2]` has sample standard deviation
exactly 1; the third z-score evaluates to 1. -/
theorem C6_zscore_sample_std_witness :
    (0 ≤ (1 : ℚ) ∧ (1 : ℚ) ^ 2 = sampleVar [0, 1, 2] ∧ 2 < ([0, 1, 2] : List ℚ).length)
    ∧ (zScores 1 [0, 1, 2]).getD 2 0 = 1 := by
  have hs : (1 : ℚ) ^ 2 = sampleVar [0, 1, 2] := by
    norm_num [sampleVar, mean]
  refine ⟨⟨by norm_num, hs, by norm_num⟩, ?_⟩
  have h := (C6_zscore_sample_std [0, 1, 2] 1 2 (by norm_num) hs (by norm_num)).1
  rw [h]
  norm_num [sampleVar, mean, clip, min_def, max_def]

/-- Counterexample to C6 as stated: for the metric list `[0, 1, 2]` the
code emits `[-1, 0, 1]` (sample standard deviation 1), but no nonnegative
`s` with `s² = popVar [0,1,2] = 2/3` reproduces these values, so the
emitted z-scores are *not* `(x - mean) / population-std` clipped. -/
theorem C6_zscore_population_counterexample :
    (0 ≤ (1 : ℚ) ∧ (1 : ℚ) ^ 2 = sampleVar [0, 1, 2])
    ∧ zScores 1 [0, 1, 2] = [-1, 0, 1]
    ∧ ¬PopZClaimHolds [0, 1, 2] (zScores 1 [0, 1, 2]) := by
  have hsv : sampleVar ([0, 1, 2] : List ℚ) = 1 := by norm_num [sampleVar, mean]
  have hz : zScores 1 ([0, 1, 2] : List ℚ) = [-1, 0, 1] := by
    norm_num [zScores, mean, clip, min_def, max_def]
  refine ⟨⟨by norm_num, by rw [hsv]; norm_num⟩, hz, ?_⟩
  rintro ⟨s, hs0, hs2, heq⟩
  have hpv : popVar ([0, 1, 2] : List ℚ) = 2 / 3 := by norm_num [popVar, mean]
  rw [hpv] at hs2
  have hsne : s ≠ 0 := by
    intro h0
    rw [h0] at hs2
    norm_num at hs2
  have hspos : 0 < s := lt_of_le_of_ne hs0 (Ne.symm hsne)
  rw [hz] at heq
  unfold zScoresPopSpec at heq
  rw [if_neg (by rw [hpv]; norm_num)] at heq
  have hmean : mean ([0, 1, 2] : List ℚ) = 1 := by norm_num [mean]
  simp only [List.map_cons, List.map_nil, hmean, List.cons.injEq, and_true] at heq
  have h3 : (1 : ℚ) = clip (-6) 6 ((2 - 1) / s) := heq.2.2
  have hinv : (0 : ℚ) < 1 / s := by positivity
  unfold clip at h3
  rcases le_or_lt ((2 - 1) / s) 6 with hle | hlt
  · rw [min_eq_right hle, max_eq_right (by linarith)] at h3
    have hs1 : s = 1 := by
      field_simp at h3
      linarith
    rw [hs1] at hs2
    norm_num at hs2
  · rw [min_eq_left (le_of_lt hlt), max_eq_right (by norm_num)] at h3
    norm_num at h3

/-! ## Claims about the timeline builder -/

/-- **C7.** Between two chronologically adjacent committed points more
than one day apart, the timeline contains, strictly between the two
committed entries, exactly `days - 1` interpolated points with linearly
interpolated prices, each carrying empty week/stock/confidence fields. -/
theorem C7_linear_interpolation (c0 c1 : CommitPoint) (rest : List CommitPoint)
    (hd : 1 < c1.day - c0.day) :
    buildTimeline (c0 :: c1 :: rest)
        = commitEntry c0 :: (interpEntries c0 c1
            ++ commitEntry c1 :: buildTimelineGo c1 rest)
    ∧ (interpEntries c0 c1).length = (c1.day - c0.day - 1).toNat
    ∧ (∀ k : ℕ, k < (c1.day - c0.day - 1).toNat →
        (interpEntries c0 c1).getD k default
          = { day := c0.day + ((k : ℤ) + 1)
              price := roundQ 4 (c0.price
                + (c1.price - c0.price) * ((k : ℚ) + 1) / ((c1.day - c0.day : ℤ) : ℚ))
              week := none
              stock := none
              confidence := none })
    ∧ (∀ e ∈ interpEntries c0 c1,
        e.week = none ∧ e.stock = none ∧ e.confidence = none) := by
  refine ⟨rfl, ?_, ?_, ?_⟩
  · unfold interpEntries
    rw [if_pos hd, List.length_map, List.length_range]
  · intro k hk
    unfold interpEntries
    rw [if_pos hd]
    have hk2 : k < (List.range (c1.day - c0.day - 1).toNat).length := by
      simpa using hk
    rw [getD_map_of_lt _ 0 _ hk2]
    have hr : (List.range (c1.day - c0.day - 1).toNat).getD k 0 = k := by
      rw [List.getD_eq_getElem?_getD, List.getElem?_range hk]
      rfl
    rw [hr]
  · intro e he
    unfold interpEntries at he
    rw [if_pos hd] at he
    simp only [List.mem_map] at he
    obtain ⟨k, _, rfl⟩ := he
    exact ⟨rfl, rfl, rfl⟩

/-- Witness for C7: two committed points 4 days apart with prices 100 and
120 yield exactly 3 interpolated points, at prices 105, 110, 115. -/
theorem C7_linear_interpolation_witness :
    (1 : ℤ) < (4 : ℤ) - 0
    ∧ (interpEntries ⟨0, 100, 1, 1⟩ ⟨4, 120, 2, 1⟩).length = 3
    ∧ (interpEntries ⟨0, 100, 1, 1⟩ ⟨4, 120, 2, 1⟩).map TimelineEntry.price
        = [105, 110, 115] := by
  refine ⟨by norm_num, ?_, ?_⟩
  · have h := (C7_linear_interpolation ⟨0, 100, 1, 1⟩ ⟨4, 120, 2, 1⟩ [] (by norm_num)).2.1
    simpa using h
  · norm_num [interpEntries, show Int.toNat 3 = 3 from rfl, List.range_succ,
      roundQ, round_eq]

/-! ## Claim about the momentum adjuster -/

lemma getD_zipWith_of_lt (f : ℚ → ℚ → ℚ) :
    ∀ (as bs : List ℚ) (i : ℕ), i < as.length → i < bs.length →
      (List.zipWith f as bs).getD i 0 = f (as.getD i 0) (bs.getD i 0)
  | [], _, i, ha, _ => by simp at ha
  | _ :: _, [], i, _, hb => by simp at hb
  | a :: as, b :: bs, 0, _, _ => rfl
  | a :: as, b :: bs, i + 1, ha, hb => by
    simp only [List.zipWith_cons_cons, List.getD_cons_succ]
    exact getD_zipWith_of_lt f as bs i (by simpa using ha) (by simpa using hb)

lemma getD_dropLast_of_lt {l : List ℚ} {i : ℕ} (h : i + 1 < l.length) :
    l.dropLast.getD i 0 = l.getD i 0 := by
  have h2 : i < l.dropLast.length := by
    simp only [List.length_dropLast]
    omega
  simp [List.getD_eq_getElem?_getD, List.getElem?_eq_getElem h2,
    List.getElem?_eq_getElem (by omega : i < l.length), List.getElem_dropLast]

/-- A z-score already rounded to 4 decimals (as the pipeline commits them)
keeps its 6-decimal rounding of `z * 0.3` exact. -/
lemma roundQ6_momentum_exact {z : ℚ} (hz : roundQ 4 z = z) :
    roundQ 6 (z * (3 / 10)) = (3 / 10) * z := by
  obtain ⟨k, hk⟩ := exists_int_of_roundQ_fix hz
  have hrw : z * (3 / 10) = ((30 * k : ℤ) : ℚ) / 10 ^ 6 := by
    rw [hk]
    push_cast
    ring
  rw [hrw, roundQ_intMul, hk]
  push_cast
  ring

/-- **C8.** For each player (rows sorted by week), the momentum term added
before committing a week equals `0.3 *` the previous week's committed
z-scored efficiency — exactly, since committed z-scores carry 4 decimals —
and is 0 when no prior week exists; the adjusted stock value committed is
the 4-decimal rounding of `stock_value + momentum`. -/
theorem C8_momentum_prior_week (zs svs : List ℚ) (h4 : ∀ z ∈ zs, roundQ 4 z = z) :
    (lastGameDeltas zs).getD 0 0 = 0
    ∧ (∀ i : ℕ, i + 1 < zs.length →
        (lastGameDeltas zs).getD (i + 1) 0 = (3 / 10) * zs.getD i 0)
    ∧ (∀ i : ℕ, i < svs.length → i < zs.length →
        (stockValueAdjList svs zs).getD i 0
          = roundQ 4 (svs.getD i 0 + (lastGameDeltas zs).getD i 0)) := by
  refine ⟨?_, ?_, ?_⟩
  · unfold lastGameDeltas lastZList
    simp [roundQ]
  · intro i hi
    unfold lastGameDeltas
    have hlen : i + 1 < (lastZList zs).length := by
      unfold lastZList
      simp only [List.length_cons, List.length_dropLast]
      omega
    rw [getD_map_of_lt _ 0 _ hlen]
    unfold lastZList
    rw [List.getD_cons_succ, getD_dropLast_of_lt hi]
    have hmem : zs.getD i 0 ∈ zs := by
      rw [List.getD_eq_getElem?_getD, List.getElem?_eq_getElem (by omega : i < zs.length)]
      exact List.getElem_mem _
    exact roundQ6_momentum_exact (h4 _ hmem)
  · intro i hsv hz
    unfold stockValueAdjList
    have hld : i < (lastGameDeltas zs).length := by
      unfold lastGameDeltas lastZList
      simp only [List.length_map, List.length_cons, List.length_dropLast]
      omega
    rw [getD_zipWith_of_lt _ svs (lastGameDeltas zs) i hsv hld]

/-- Witness for C8 on the two-week history `z = [0.5, 0.25]`,
`stock_value = [0.1, 0.2]`: the second week's momentum is
`0.3 * 0.5 = 0.15`. -/
theorem C8_momentum_prior_week_witness :
    (∀ z ∈ ([1 / 2, 1 / 4] : List ℚ), roundQ 4 z = z)
    ∧ (lastGameDeltas [1 / 2, 1 / 4]).getD 0 0 = 0
    ∧ (lastGameDeltas [1 / 2, 1 / 4]).getD 1 0 = 3 / 20
    ∧ (stockValueAdjList [1 / 10, 1 / 5] [1 / 2, 1 / 4]).getD 1 0
        = roundQ 4 (1 / 5 + 3 / 20) := by
  have h4 : ∀ z ∈ ([1 / 2, 1 / 4] : List ℚ), roundQ 4 z = z := by
    intro z hzm
    rcases List.mem_cons.mp hzm with h | hzm2
    · rw [h]; norm_num [roundQ, round_eq]
    · rcases List.mem_cons.mp hzm2 with h | hzm3
      · rw [h]; norm_num [roundQ, round_eq]
      · simp at hzm3
  have hthm := C8_momentum_prior_week [1 / 2, 1 / 4] [1 / 10, 1 / 5] h4
  refine ⟨h4, hthm.1, ?_, ?_⟩
  · have h := hthm.2.1 0 (by norm_num)
    rw [h]
    norm_num
  · have h := hthm.2.2 1 (by norm_num) (by norm_num)
    rw [h]
    have hld : (lastGameDeltas [1 / 2, 1 / 4]).getD 1 0 = 3 / 20 := by
      have h2 := hthm.2.1 0 (by norm_num)
      rw [h2]
      norm_num
    rw [hld]
    norm_num

/-! ## Claim about input validation -/

/-- **C9.** If after normalisation and validation the batch has no valid
row (a non-empty player name together with a usable metric: non-NaN
`epa_per_play`, positive `plays`, or a non-NaN `z_`-prefixed field), the
compute step aborts with the non-zero exit status 3 instead of emitting an
empty summary; otherwise exactly the valid rows are kept, so rows lacking
a player identity are dropped from the batch. -/
theorem C9_invalid_batch_aborts (rows : List InRow) :
    ((∀ r ∈ rows, isValidRow r = false) → validateBatch rows = Except.error 3)
    ∧ (∀ vs, validateBatch rows = Except.ok vs →
        vs = rows.filter isValidRow
          ∧ ∀ r ∈ vs, r.player ≠ ""
              ∧ (r.epaPerPlay.isSome ∨ 0 < r.plays ∨ r.zFields.any Option.isSome))
    ∧ (∀ r ∈ rows, r.player = "" → r ∉ rows.filter isValidRow)
    ∧ (3 : ℕ) ≠ 0 := by
  refine ⟨?_, ?_, ?_, by norm_num⟩
  · intro hall
    unfold validateBatch
    have hnil : rows.filter isValidRow = [] := by
      rw [List.filter_eq_nil]
      intro r hr
      rw [hall r hr]
      simp
    rw [hnil]
    rfl
  · intro vs hok
    unfold validateBatch at hok
    by_cases hlen : (rows.filter isValidRow).length = 0
    · rw [if_pos hlen] at hok
      cases hok
    · rw [if_neg hlen] at hok
      obtain rfl : rows.filter isValidRow = vs := by
        cases hok
        rfl
      refine ⟨rfl, ?_⟩
      intro r hr
      have hvalid : isValidRow r = true := (List.mem_filter.mp hr).2
      unfold isValidRow at hvalid
      simp only [Bool.and_eq_true, Bool.or_eq_true, decide_eq_true_eq] at hvalid
      exact ⟨hvalid.1, by tauto⟩
  · intro r _ hempty hmem
    have hvalid : isValidRow r = true := (List.mem_filter.mp hmem).2
    unfold isValidRow at hvalid
    simp only [Bool.and_eq_true, decide_eq_true_eq] at hvalid
    exact hvalid.1 hempty

/-- Witness for C9: a batch whose single row has no player name is
entirely invalid, and the compute step aborts with exit status 3. -/
theorem C9_invalid_batch_aborts_witness :
    (∀ r ∈ ([⟨"", none, 0, [none]⟩] : List InRow), isValidRow r = false)
    ∧ validateBatch [⟨"", none, 0, [none]⟩] = Except.error 3 := by
  have hall : ∀ r ∈ ([⟨"", none, 0, [none]⟩] : List InRow), isValidRow r = false := by
    intro r hr
    rcases List.mem_cons.mp hr with h | hr2
    · rw [h]
      rfl
    · simp at hr2
  exact ⟨hall, (C9_invalid_batch_aborts [⟨"", none, 0, [none]⟩]).1 hall⟩

/-! ## Claim C2: the interception weight is dead in the final dispatch -/

/-- First QB record of the failing batch: 3 interceptions, all other
stats as in its peer. -/
def c2RowA : QBIn :=
  { player := "A"
    position := "QB"
    week := 1
    passAttempts := 30
    passYards := 250
    passTds := 2
    ints := 3
    rushYards := 0
    rushTds := 0
    epaPerPlay := 3 / 10
    cpoe := 2
    price := 50 }

/-- Second QB record: identical to the first in every stat except
interceptions (0 instead of 3). -/
def c2RowB : QBIn :=
  { player := "B"
    position := "QB"
    week := 1
    passAttempts := 30
    passYards := 250
    passTds := 2
    ints := 0
    rushYards := 0
    rushTds := 0
    epaPerPlay := 3 / 10
    cpoe := 2
    price := 50 }

/-- **C2 (evaluation at the failing input).** Two QB records identical in
every stat except interception count (3 vs 0) receive *equal* committed
`rawChange` values (−0.075 each), because the final dispatch at line 1567
overwrites `weekly_change` with `compute_qb_stock`, which reads no
interception z-score — contradicting the claimed strict inequality, the
spec's QB weight table (−0.25 on z(interceptions)) and the repository's
own test `test_interceptions_decrease_price`.  The `0 ^ 2 = sampleVar`
conjuncts certify that 0 is the genuine sample standard deviation of every
z-scored stat column of this batch, so the z-scores fed to the dispatch
are the ones the pipeline would compute. -/
theorem C2_interception_weight_dead :
    c2RowA.ints = 3 ∧ c2RowB.ints = 0
    ∧ c2RowB = { c2RowA with player := "B", ints := 0 }
    ∧ ((0 : ℚ) ^ 2 = sampleVar ([c2RowA, c2RowB].map QBIn.epaPerPlay)
        ∧ (0 : ℚ) ^ 2 = sampleVar ([c2RowA, c2RowB].map QBIn.cpoe)
        ∧ (0 : ℚ) ^ 2 = sampleVar ([c2RowA, c2RowB].map QBIn.passYards)
        ∧ (0 : ℚ) ^ 2 = sampleVar ([c2RowA, c2RowB].map QBIn.passTds)
        ∧ (0 : ℚ) ^ 2 = sampleVar ([c2RowA, c2RowB].map QBIn.rushYards)
        ∧ (0 : ℚ) ^ 2 = sampleVar ([c2RowA, c2RowB].map QBIn.rushTds))
    ∧ qbSummaryRawChanges 0 0 0 0 0 0 (fun x => x) [c2RowA, c2RowB]
        = [-(3 / 40), -(3 / 40)] := by
  refine ⟨rfl, rfl, rfl, ⟨?_, ?_, ?_, ?_, ?_, ?_⟩, ?_⟩ <;>
    norm_num [c2RowA, c2RowB, sampleVar, mean, qbSummaryRawChanges, mkPosRows,
      mkVRow, zColumn, zScores, computePosScore, computeQbStock, applyVolatility,
      rowOutA, rowOutB, mkVOut, rawAltOf, projectionDeltaOf, projDelta,
      marketChangeOf, tvNormA, tvNormB, perfOf, sentimentFactorOf, multiplierOf,
      hasGame, playoffMask, primetimeMask, offseasonOf, clip, roundQ, round_eq,
      List.range_succ]

end PlayerStock
